import Mathlib

/-!
Verification of the `keadm debug get` pipeline
(`src/keadm/cmd/keadm/app/cmd/debug/get.go` and `get_output.go`):
namespace filtering, per-kind distribution, pod summarization and the
three render modes, embedded shallowly from the Go source.
-/

set_option autoImplicit false
set_option maxRecDepth 4096

namespace KeadmDebugGet

/-- Untyped JSON values, as produced by Go's `json.Unmarshal` into
`map[string]interface{}` / `[]interface{}` / `string` / `bool` / `float64` /
`nil`.  JSON numbers arrive in Go as `float64`; the source only ever converts
them with `int(...)`, and we model them by integers (on which that conversion
is the identity). -/
inductive Jv where
  | jstr : String → Jv
  | jnum : Int → Jv
  | jbool : Bool → Jv
  | jnull : Jv
  | jarr : List Jv → Jv
  | jobj : List (String × Jv) → Jv

/-- Reading a key out of a decoded JSON object (`jsonMap["k"]`): the first
binding wins, a missing key yields `none` (Go: the `nil` interface value). -/
def jlookup : List (String × Jv) → String → Option Jv
  | [], _ => none
  | p :: rest, k => if p.1 == k then some p.2 else jlookup rest k

/-- Go map assignment `jsonMap[k] = val`: replace the binding if the key is
present, otherwise add it. -/
def jupsert : List (String × Jv) → String → Jv → List (String × Jv)
  | [], k, val => [(k, val)]
  | p :: rest, k, val =>
    if p.1 == k then (k, val) :: rest else p :: jupsert rest k val

/-- Go type assertion `x.(map[string]interface{})` on a looked-up field:
succeeds only on a JSON object; a missing key, JSON null, or any other shape
makes the assertion panic (modelled by `none` here, turned into a crash at the
use site). -/
def jAsObj : Option Jv → Option (List (String × Jv))
  | some (Jv.jobj m) => some m
  | _ => none

/-- Go type assertion `x.([]interface{})`. -/
def jAsArr : Option Jv → Option (List Jv)
  | some (Jv.jarr xs) => some xs
  | _ => none

/-- Go type assertion `x.(string)`. -/
def jAsStr : Option Jv → Option String
  | some (Jv.jstr s) => some s
  | _ => none

/-- Go type assertion `x.(bool)`. -/
def jAsBool : Option Jv → Option Bool
  | some (Jv.jbool b) => some b
  | _ => none

/-- Go type assertion `x.(float64)`, then `int(...)`. -/
def jAsNum : Option Jv → Option Int
  | some (Jv.jnum n) => some n
  | _ => none

/-- Modelled from the spec: the record type `dao.Meta` of the metamanager
package is not under `src/`; per the spec's ResourceRecord it carries a
`Key` of shape `"<namespace>/<name>"`, a `Type` (the record's kind) and an
opaque serialized payload `Value`.  `Value` is represented here by the result
of `json.Shared.Unmarshal` into a `map[string]interface{}`: `some m` when the
stored string is a JSON object decoding to `m`, `none` when unmarshalling
into a map fails (invalid JSON or a non-object document). -/
structure Meta where
  Key : String
  «Type» : String
  Value : Option (List (String × Jv))

/-- The summary row built by `MetaToPodInfo` (struct `PodInfo` in
`get_output.go`). -/
structure PodInfo where
  name : String
  status : String
  restarts : Int
  ready : String
  ip : String
  node : String
deriving DecidableEq, Repr

/-- Outcome of a Go function that returns `(T, error)` but whose body also
contains unchecked type assertions: `ok` is a normal return, `err` a returned
non-nil error, `crash` a runtime panic (failed type assertion). -/
inductive GoResult (α : Type) where
  | ok : α → GoResult α
  | err : GoResult α
  | crash : GoResult α
deriving DecidableEq

/-- `getNamespaceFromKey` (get.go): `strings.Split(key, "/")[0]`.  For the
one-character separator `"/"` the first element of `strings.Split` is exactly
the longest prefix of the key containing no `/` (the whole key when there is
no `/`, the empty string when the key starts with `/`), which is how it is
written here. -/
def getNamespaceFromKey (key : String) : String :=
  String.mk (key.data.takeWhile (fun c => c != '/'))

/-- `filterNamespace` (get.go).  The `all-namespaces` flag value is passed in
directly (the flag is registered, so `GetBool` cannot fail).  When the flag is
set the input is returned as-is; otherwise the loop appends exactly the
records whose key's namespace component equals `namespace`. -/
def filterNamespace (result : List Meta) (namespace_ : String)
    (allNamespacesFlag : Bool) : List Meta :=
  if allNamespacesFlag then result
  else
    result.foldl
      (fun filterResult v =>
        if getNamespaceFromKey v.Key == namespace_ then filterResult ++ [v]
        else filterResult)
      []

/-- The package-level variable `availableResourceTypes` (get.go line 28).
It is declared but never assigned: `RunE` declares a fresh local variable of
the same name with `:=`, shadowing this one.  A nil Go map has no keys, so we
model it by the empty key list. -/
def availableResourceTypes : List String := []

/-- The local `availableResourceTypes` map built inside `RunE` (get.go):
the kinds accepted as the positional argument of `keadm debug get`. -/
def availableResourceTypesRunE : List String :=
  ["all", "pod", "node", "service", "secret", "configmap", "endpoint"]

/-- The fixed set of stored kinds from the spec's data model — the RunE set
without the query-only pseudo-kind `all`. -/
def fixedResourceKinds : List String :=
  ["pod", "node", "service", "secret", "configmap", "endpoint"]

/-- The Go value `map[string][]dao.Meta`, modelled as an association list:
key membership and the value at each key are what the source observes
(Go map iteration order is irrelevant to the claims). -/
abbrev KindMap := List (String × List Meta)

/-- Reading `resultMap[k]` from a `map[string][]dao.Meta`: a missing key
yields the zero value, the nil (empty) slice. -/
def mapGetD : KindMap → String → List Meta
  | [], _ => []
  | p :: rest, k => if p.1 == k then p.2 else mapGetD rest k

/-- Key membership in the map (`_, ok := resultMap[k]`). -/
def mapHasKey : KindMap → String → Bool
  | [], _ => false
  | p :: rest, k => p.1 == k || mapHasKey rest k

/-- `resultMap[k] = append(resultMap[k], v)`: extend the slice at `k`,
creating the key when absent. -/
def mapAppendVal : KindMap → String → Meta → KindMap
  | [], k, v => [(k, [v])]
  | p :: rest, k, v =>
    if p.1 == k then (p.1, p.2 ++ [v]) :: rest else p :: mapAppendVal rest k v

/-- `distributeByResourceType` (get.go): seed one empty bucket per key of the
package-level `availableResourceTypes` (which is nil — see its definition),
then append every record to the bucket keyed by its own `Type`. -/
def distributeByResourceType (metas : List Meta) : KindMap :=
  metas.foldl (fun resultMap v => mapAppendVal resultMap v.«Type» v)
    (availableResourceTypes.map (fun k => (k, ([] : List Meta))))

/-- `getReadyAndRestartCount` (get_output.go): walk the container statuses,
counting `ready == true` and summing `restartCount`.  Each element is cast
with `v.(map[string]interface{})`, `mapData["ready"].(bool)` and
`mapData["restartCount"].(float64)`; a failed cast is a runtime panic
(`GoResult.crash`). -/
def getReadyAndRestartCount : List Jv → GoResult (Nat × Int)
  | [] => GoResult.ok (0, 0)
  | v :: rest =>
    match v with
    | Jv.jobj mapData =>
      match jAsBool (jlookup mapData "ready") with
      | some isReady =>
        match jAsNum (jlookup mapData "restartCount") with
        | some rc =>
          match getReadyAndRestartCount rest with
          | GoResult.ok (totReadyCount, totRestartCount) =>
            GoResult.ok
              ((if isReady then 1 else 0) + totReadyCount, rc + totRestartCount)
          | GoResult.err => GoResult.err
          | GoResult.crash => GoResult.crash
        | none => GoResult.crash
      | none => GoResult.crash
    | _ => GoResult.crash

/-- The body of `MetaToPodInfo`'s loop for one record (get_output.go lines
197-226): unmarshal the payload (a non-nil error is returned), then read
`metadata`, `status`, `status.containerStatuses`, `spec` and the five leaf
fields through unchecked type assertions (a failure is a runtime panic). -/
def metaToPodInfoOne (v : Meta) : GoResult PodInfo :=
  match v.Value with
  | none => GoResult.err
  | some jsonMap =>
    match jAsObj (jlookup jsonMap "metadata") with
    | none => GoResult.crash
    | some metadata =>
      match jAsObj (jlookup jsonMap "status") with
      | none => GoResult.crash
      | some status =>
        match jAsArr (jlookup status "containerStatuses") with
        | none => GoResult.crash
        | some containerStatuses =>
          match jAsObj (jlookup jsonMap "spec") with
          | none => GoResult.crash
          | some spec =>
            match getReadyAndRestartCount containerStatuses with
            | GoResult.err => GoResult.err
            | GoResult.crash => GoResult.crash
            | GoResult.ok (readyCount, restartCount) =>
              match jAsStr (jlookup metadata "name") with
              | none => GoResult.crash
              | some name =>
                match jAsStr (jlookup status "phase") with
                | none => GoResult.crash
                | some phase =>
                  match jAsStr (jlookup status "podIP") with
                  | none => GoResult.crash
                  | some podIP =>
                    match jAsStr (jlookup spec "nodeName") with
                    | none => GoResult.crash
                    | some nodeName =>
                      GoResult.ok
                        { name := name
                          status := phase
                          restarts := restartCount
                          ready :=
                            toString readyCount ++ "/"
                              ++ toString containerStatuses.length
                          ip := podIP
                          node := nodeName }

/-- `MetaToPodInfo` (get_output.go): one summary per record in order; the
first record whose payload fails to unmarshal aborts with the returned error
(zero rows), and a failed type assertion inside the loop panics. -/
def MetaToPodInfo : List Meta → GoResult (List PodInfo)
  | [] => GoResult.ok []
  | v :: rest =>
    match metaToPodInfoOne v with
    | GoResult.ok newPodInfo =>
      match MetaToPodInfo rest with
      | GoResult.ok result => GoResult.ok (newPodInfo :: result)
      | GoResult.err => GoResult.err
      | GoResult.crash => GoResult.crash
    | GoResult.err => GoResult.err
    | GoResult.crash => GoResult.crash

/-- One iteration of the list-building loop in `printResult` (get.go lines
199-219).  The error of `json.Unmarshal(byteJSON, &jsonMap)` is assigned to
`err` but never checked (it is overwritten by the `json.Marshal` call), so an
unparsable payload leaves `jsonMap` empty and processing continues.  The map
is then annotated with `apiVersion = "v1"` and `kind = v.Type`, re-marshalled
(which cannot fail for such a map) and decoded with
`runtime.Decode(unstructured.UnstructuredJSONScheme, ...)`, which fails
exactly when the object's `kind` is missing or empty — here, iff `v.Type`
is the empty string. -/
def printResultItem (v : Meta) : GoResult (List (String × Jv)) :=
  let jsonMap := v.Value.getD []
  let jsonMap := jupsert jsonMap "apiVersion" (Jv.jstr "v1")
  let jsonMap := jupsert jsonMap "kind" (Jv.jstr v.«Type»)
  if v.«Type» == "" then GoResult.err else GoResult.ok jsonMap

/-- The whole list-building loop of `printResult`: the first record whose
re-decode fails aborts with that error. -/
def printResultItems : List Meta → GoResult (List (List (String × Jv)))
  | [] => GoResult.ok []
  | v :: rest =>
    match printResultItem v with
    | GoResult.ok item =>
      match printResultItems rest with
      | GoResult.ok items => GoResult.ok (item :: items)
      | GoResult.err => GoResult.err
      | GoResult.crash => GoResult.crash
    | GoResult.err => GoResult.err
    | GoResult.crash => GoResult.crash

/-- The `displayList` document of `printResult` (get.go lines 235-251): a
`List`/`v1` envelope whose `metadata` carries the (empty) selfLink and
resourceVersion read back from the marshalled `corev1.List`, and whose
`items` are the annotated per-record objects. -/
def jsonListEnvelope (items : List (List (String × Jv))) : Jv :=
  Jv.jobj
    [("kind", Jv.jstr "List"),
     ("apiVersion", Jv.jstr "v1"),
     ("metadata",
       Jv.jobj [("selfLink", Jv.jstr ""), ("resourceVersion", Jv.jstr "")]),
     ("items", Jv.jarr (items.map Jv.jobj))]

/-- The document produced by the `"json"` branch of `printResult` (the same
document is the input of the `"yaml"` branch): the indented serialization of
`displayList`, modelled at the level of the JSON value. -/
def printResultJson (metas : List Meta) : GoResult Jv :=
  match printResultItems metas with
  | GoResult.ok items => GoResult.ok (jsonListEnvelope items)
  | GoResult.err => GoResult.err
  | GoResult.crash => GoResult.crash

/-- Outcome of `printResult` (get.go lines 183-291) for a given output
format.  The list-building loop runs before the `switch` for every format;
the `""` (table) branch then distributes by type and summarizes the `pod`
bucket; the `"json"` and `"yaml"` branches serialize the already-built
document (no further failure); any other format falls through the `switch`
and returns nil. -/
def printResultModel (metas : List Meta) (outputFormat : String) :
    GoResult Unit :=
  match printResultItems metas with
  | GoResult.err => GoResult.err
  | GoResult.crash => GoResult.crash
  | GoResult.ok _ =>
    if outputFormat == "" then
      match MetaToPodInfo (mapGetD (distributeByResourceType metas) "pod") with
      | GoResult.ok _ => GoResult.ok ()
      | GoResult.err => GoResult.err
      | GoResult.crash => GoResult.crash
    else GoResult.ok ()

/-- The `text/tabwriter` configuration built by `NewTabWriter`
(get_output.go): `writer.Init(out, tabwriterMinWidth, tabwriterWidth,
tabwriterPadding, tabwriterPadChar, tabwriterFlags)`. -/
structure TabWriterConfig where
  minwidth : Nat
  tabwidth : Nat
  padding : Nat
  padchar : Char
  flags : Nat
deriving DecidableEq

/-- The constants of get_output.go lines 21-27. -/
def tabwriterMinWidth : Nat := 8

def tabwriterWidth : Nat := 8

def tabwriterPadding : Nat := 3

def tabwriterPadChar : Char := '\t'

def tabwriterFlags : Nat := 0

/-- The configuration `NewTabWriter` installs on the writer used by
`OutputPodInfo`. -/
def newTabWriterConfig : TabWriterConfig :=
  { minwidth := tabwriterMinWidth
    tabwidth := tabwriterWidth
    padding := tabwriterPadding
    padchar := tabwriterPadChar
    flags := tabwriterFlags }

/-- The byte stream `OutputPodInfo` (get_output.go lines 231-239) writes into
the tab writer: the header cells (note the source spells the second column
`STAUTS`), then for each summary a newline followed by its six tab-separated
cells, then the final `Fprintln` newline — present even for an empty list. -/
def OutputPodInfo (result : List PodInfo) : String :=
  result.foldl
    (fun acc v =>
      acc ++ "\n" ++ v.name ++ "\t" ++ v.status ++ "\t"
        ++ toString v.restarts ++ "\t" ++ v.ready ++ "\t" ++ v.ip ++ "\t"
        ++ v.node)
    "NAME\tSTAUTS\tRESTARTS\tREADY\tIP\tNODE\t"
  ++ "\n"

/-- Observable steps of one `RunE` invocation of `keadm debug get`:
registering/opening the backing database (`initDb`), querying it
(`getResult`), a `klog.Fatal` process exit, and the outcome of the render. -/
inductive Event where
  | storeOpen : Event
  | storeRead : Event
  | fatalExit : Event
  | renderOk : Event
  | renderErr : Event
  | crashed : Event
deriving DecidableEq, Repr

/-- The `RunE` closure of `NewCmdDebugGet` (get.go lines 35-71) as the trace
of its observable steps.  `initDb(getDbPath(cmd))` runs first; only then are
the argument count and the resource type checked (each failure is a
`klog.Fatal` process exit); then `getResult` queries the store, the result is
namespace-filtered and rendered.  The store is abstracted as a function from
the queried resource type to the records it returns (`"all"` selects every
record). -/
def runE (args : List String) (store : String → List Meta)
    (namespace_ : String) (allNamespacesFlag : Bool) (outputFormat : String) :
    List Event :=
  Event.storeOpen ::
    (if args.length != 1 then [Event.fatalExit]
     else if !(availableResourceTypesRunE.contains (args.headD "")) then
       [Event.fatalExit]
     else
       Event.storeRead ::
         (match
            printResultModel
              (filterNamespace (store (args.headD "")) namespace_
                allNamespacesFlag)
              outputFormat with
          | GoResult.ok _ => [Event.renderOk]
          | GoResult.err => [Event.renderErr]
          | GoResult.crash => [Event.crashed]))

/-- Spec-side view of one container status (spec §4.4: an object with
`ready : bool` and `restartCount : number`). -/
structure ContainerStatusSpec where
  ready : Bool
  restartCount : Int
deriving DecidableEq, Repr

/-- Spec-side view of the required pod payload shape (spec §4.4:
`metadata.name`, `status.phase`, `status.podIP`, `spec.nodeName`,
`status.containerStatuses`). -/
structure PodSpec where
  name : String
  phase : String
  podIP : String
  nodeName : String
  containerStatuses : List ContainerStatusSpec
deriving DecidableEq, Repr

/-- Reading one container status along the spec's required shape; `none`
when a field is missing or of the wrong type. -/
def specDecodeContainerStatus (j : Jv) : Option ContainerStatusSpec :=
  match j with
  | Jv.jobj m =>
    match jAsBool (jlookup m "ready"), jAsNum (jlookup m "restartCount") with
    | some r, some rc => some { ready := r, restartCount := rc }
    | _, _ => none
  | _ => none

/-- Reading a whole pod payload along the spec's required shape, by fixed
path; `none` when unmarshalling failed or any required field is missing or of
the wrong type.  This is the spec's description of the summarizer's input,
used to state the refinement of `MetaToPodInfo`. -/
def specDecodePod (v : Meta) : Option PodSpec :=
  match v.Value with
  | none => none
  | some jsonMap =>
    match jAsObj (jlookup jsonMap "metadata") with
    | none => none
    | some metadata =>
      match jAsObj (jlookup jsonMap "status") with
      | none => none
      | some status =>
        match jAsArr (jlookup status "containerStatuses") with
        | none => none
        | some containerStatuses =>
          match jAsObj (jlookup jsonMap "spec") with
          | none => none
          | some spec =>
            match jAsStr (jlookup metadata "name"),
                jAsStr (jlookup status "phase"),
                jAsStr (jlookup status "podIP"),
                jAsStr (jlookup spec "nodeName"),
                containerStatuses.mapM specDecodeContainerStatus with
            | some name, some phase, some podIP, some nodeName, some cs =>
              some
                { name := name
                  phase := phase
                  podIP := podIP
                  nodeName := nodeName
                  containerStatuses := cs }
            | _, _, _, _, _ => none

/-- The summary the spec prescribes (§4.4): `readyCount` = number of ready
container statuses, `restartCount` = sum of the restart counts, ready display
string `"<readyCount>/<totalContainers>"`. -/
def specSummarize (p : PodSpec) : PodInfo :=
  { name := p.name
    status := p.phase
    restarts := (p.containerStatuses.map (fun c => c.restartCount)).sum
    ready :=
      toString (p.containerStatuses.filter (fun c => c.ready)).length ++ "/"
        ++ toString p.containerStatuses.length
    ip := p.podIP
    node := p.nodeName }

/-- The annotated object `printResult` builds for one record when the
re-decode succeeds. -/
def printAnnotated (v : Meta) : List (String × Jv) :=
  jupsert (jupsert (v.Value.getD []) "apiVersion" (Jv.jstr "v1")) "kind"
    (Jv.jstr v.«Type»)

/-- A pod record whose payload has every required field except
`status.podIP`. -/
def podPayloadMissingPodIP : Meta :=
  { Key := "default/nginx"
    «Type» := "pod"
    Value :=
      some
        [("metadata", Jv.jobj [("name", Jv.jstr "nginx")]),
         ("spec", Jv.jobj [("nodeName", Jv.jstr "edge-0")]),
         ("status",
           Jv.jobj
             [("phase", Jv.jstr "Running"),
              ("containerStatuses", Jv.jarr [])])] }

/-- A record whose kind lies outside the fixed resource-kind set. -/
def widgetRecord : Meta :=
  { Key := "default/w", «Type» := "widget", Value := none }

/-- The claim's concrete pod record: two container statuses with ready flags
`[true, false]` and restart counts `[0, 3]`. -/
def podRecordTwoContainers : Meta :=
  { Key := "default/nginx"
    «Type» := "pod"
    Value :=
      some
        [("metadata", Jv.jobj [("name", Jv.jstr "nginx")]),
         ("spec", Jv.jobj [("nodeName", Jv.jstr "edge-0")]),
         ("status",
           Jv.jobj
             [("phase", Jv.jstr "Running"),
              ("podIP", Jv.jstr "10.0.0.7"),
              ("containerStatuses",
                Jv.jarr
                  [Jv.jobj
                     [("ready", Jv.jbool true), ("restartCount", Jv.jnum 0)],
                   Jv.jobj
                     [("ready", Jv.jbool false),
                      ("restartCount", Jv.jnum 3)]])])] }

/-- The spec-side view of `podRecordTwoContainers`. -/
def podSpecTwoContainers : PodSpec :=
  { name := "nginx"
    phase := "Running"
    podIP := "10.0.0.7"
    nodeName := "edge-0"
    containerStatuses :=
      [{ ready := true, restartCount := 0 },
       { ready := false, restartCount := 3 }] }

/-- A pod record with a small valid JSON payload. -/
def samplePodRecord : Meta :=
  { Key := "default/a"
    «Type» := "pod"
    Value := some [("metadata", Jv.jobj [("name", Jv.jstr "a")])] }

/-- A service record with a valid (empty-object) JSON payload. -/
def sampleServiceRecord : Meta :=
  { Key := "default/b", «Type» := "service", Value := some [] }

/-- A pod record used for the bucket-exactness witness. -/
def bucketPodRecord : Meta :=
  { Key := "default/p", «Type» := "pod", Value := none }

/-- A node record used for the bucket-exactness witness. -/
def bucketNodeRecord : Meta :=
  { Key := "default/n", «Type» := "node", Value := none }

/-- A record whose stored payload fails to unmarshal (invalid JSON). -/
def invalidPayloadRecord : Meta :=
  { Key := "default/bad", «Type» := "pod", Value := none }

/-! Helper lemmas. -/

theorem foldl_append_filter {α : Type} (p : α → Bool) (L : List α) :
    ∀ acc : List α,
      L.foldl (fun acc v => if p v then acc ++ [v] else acc) acc
        = acc ++ L.filter p := by
  induction L with
  | nil => intro acc; simp
  | cons v L ih =>
    intro acc
    by_cases h : p v
    · simp [List.foldl_cons, h, ih, List.filter_cons]
    · simp [List.foldl_cons, h, ih, List.filter_cons]

theorem mapGetD_mapAppendVal_self (m : KindMap) (k : String) (v : Meta) :
    mapGetD (mapAppendVal m k v) k = mapGetD m k ++ [v] := by
  induction m with
  | nil => simp [mapAppendVal, mapGetD]
  | cons p rest ih =>
    by_cases h : p.1 = k
    · simp [mapAppendVal, mapGetD, h]
    · simp [mapAppendVal, mapGetD, h, ih]

theorem mapGetD_mapAppendVal_ne (m : KindMap) (k k' : String) (v : Meta)
    (h : k ≠ k') : mapGetD (mapAppendVal m k v) k' = mapGetD m k' := by
  induction m with
  | nil => simp [mapAppendVal, mapGetD, h]
  | cons p rest ih =>
    by_cases hp : p.1 = k
    · simp [mapAppendVal, mapGetD, hp, h]
    · simp only [mapAppendVal, mapGetD]
      by_cases hp' : p.1 = k'
      · simp [mapGetD, hp, hp', Ne.symm h]
      · simp [mapGetD, hp, hp', ih]

theorem mapHasKey_mapAppendVal (m : KindMap) (k k' : String) (v : Meta) :
    mapHasKey (mapAppendVal m k v) k' = (mapHasKey m k' || (k == k')) := by
  induction m with
  | nil => simp [mapAppendVal, mapHasKey]
  | cons p rest ih =>
    by_cases hp : p.1 = k
    · by_cases hk : k = k'
      · simp [mapAppendVal, mapHasKey, hp, hk]
      · simp [mapAppendVal, mapHasKey, hp, hk]
    · simp [mapAppendVal, mapHasKey, hp, ih, Bool.or_assoc]

theorem distribute_foldl_getD (L : List Meta) (k : String) :
    ∀ m : KindMap,
      mapGetD (L.foldl (fun rm v => mapAppendVal rm v.«Type» v) m) k
        = mapGetD m k ++ L.filter (fun v => v.«Type» == k) := by
  induction L with
  | nil => intro m; simp
  | cons v L ih =>
    intro m
    rw [List.foldl_cons, ih]
    by_cases h : v.«Type» = k
    · rw [h, mapGetD_mapAppendVal_self]
      simp [List.filter_cons, h]
    · rw [mapGetD_mapAppendVal_ne m v.«Type» k v h]
      simp [List.filter_cons, h]

theorem distribute_foldl_hasKey (L : List Meta) (k : String) :
    ∀ m : KindMap,
      mapHasKey (L.foldl (fun rm v => mapAppendVal rm v.«Type» v) m) k
        = (mapHasKey m k || L.any (fun v => v.«Type» == k)) := by
  induction L with
  | nil => intro m; simp
  | cons v L ih =>
    intro m
    rw [List.foldl_cons, ih, mapHasKey_mapAppendVal]
    simp [List.any_cons, Bool.or_assoc]

theorem distributeByResourceType_getD (L : List Meta) (k : String) :
    mapGetD (distributeByResourceType L) k
      = L.filter (fun v => v.«Type» == k) := by
  rw [distributeByResourceType, distribute_foldl_getD]
  simp [availableResourceTypes, mapGetD]

theorem distributeByResourceType_hasKey (L : List Meta) (k : String) :
    mapHasKey (distributeByResourceType L) k
      = L.any (fun v => v.«Type» == k) := by
  rw [distributeByResourceType, distribute_foldl_hasKey]
  simp [availableResourceTypes, mapHasKey]

theorem jlookup_jupsert_self (m : List (String × Jv)) (k : String) (val : Jv) :
    jlookup (jupsert m k val) k = some val := by
  induction m with
  | nil => simp [jupsert, jlookup]
  | cons p rest ih =>
    by_cases h : p.1 = k
    · simp [jupsert, jlookup, h]
    · simp [jupsert, jlookup, h, ih]

theorem jlookup_jupsert_ne (m : List (String × Jv)) (k k' : String) (val : Jv)
    (h : k ≠ k') : jlookup (jupsert m k val) k' = jlookup m k' := by
  induction m with
  | nil => simp [jupsert, jlookup, h]
  | cons p rest ih =>
    by_cases hp : p.1 = k
    · simp [jupsert, jlookup, hp, h]
    · simp only [jupsert, jlookup]
      by_cases hp' : p.1 = k'
      · simp [jlookup, hp, hp', Ne.symm h]
      · simp [jlookup, hp, hp', ih]

theorem mapM_some_length {α β : Type} (f : α → Option β) :
    ∀ (l : List α) (l' : List β), l.mapM f = some l' → l.length = l'.length := by
  intro l
  induction l with
  | nil =>
    intro l' h
    simp only [List.mapM_nil, pure, Option.some.injEq] at h
    simp [← h]
  | cons a l ih =>
    intro l' h
    rw [List.mapM_cons] at h
    cases ha : f a with
    | none => rw [ha] at h; simp at h
    | some b =>
      rw [ha] at h
      cases hl : l.mapM f with
      | none => rw [hl] at h; simp at h
      | some bs =>
        rw [hl] at h
        simp at h
        rw [← h]
        simp [ih bs hl]

theorem zip_map_left {α β : Type} (f : α → β) :
    ∀ (l : List α) (p : β × α), p ∈ (l.map f).zip l → p.1 = f p.2 := by
  intro l
  induction l with
  | nil => intro p hp; simp at hp
  | cons a l ih =>
    intro p hp
    rw [List.map_cons, List.zip_cons_cons, List.mem_cons] at hp
    cases hp with
    | inl h => rw [h]
    | inr h => exact ih p h

theorem getReadyAndRestartCount_spec :
    ∀ (js : List Jv) (cs : List ContainerStatusSpec),
      js.mapM specDecodeContainerStatus = some cs →
      getReadyAndRestartCount js
          = GoResult.ok ((cs.filter (fun c => c.ready)).length,
              (cs.map (fun c => c.restartCount)).sum)
        ∧ js.length = cs.length := by
  intro js
  induction js with
  | nil =>
    intro cs h
    simp only [List.mapM_nil, pure, Option.some.injEq] at h
    rw [← h]
    exact ⟨rfl, rfl⟩
  | cons j js ih =>
    intro cs h
    rw [List.mapM_cons] at h
    cases hj : specDecodeContainerStatus j with
    | none => rw [hj] at h; simp at h
    | some c =>
      rw [hj] at h
      cases hrest : js.mapM specDecodeContainerStatus with
      | none => rw [hrest] at h; simp at h
      | some cs' =>
        rw [hrest] at h
        simp at h
        obtain ⟨hcount, hlen⟩ := ih cs' hrest
        unfold specDecodeContainerStatus at hj
        cases j with
        | jobj m =>
          cases hb : jAsBool (jlookup m "ready") with
          | none => simp [hb] at hj
          | some isReady =>
            simp only [hb] at hj
            cases hn : jAsNum (jlookup m "restartCount") with
            | none => simp [hn] at hj
            | some rc =>
              simp only [hn] at hj
              simp at hj
              rw [← h, ← hj]
              refine ⟨?_, by simp [hlen]⟩
              rw [getReadyAndRestartCount, hb, hn, hcount]
              cases isReady <;> simp [List.filter_cons, Nat.add_comm]
        | jstr s => simp at hj
        | jnum n => simp at hj
        | jbool b => simp at hj
        | jnull => simp at hj
        | jarr xs => simp at hj

theorem metaToPodInfoOne_spec (v : Meta) (p : PodSpec)
    (h : specDecodePod v = some p) :
    metaToPodInfoOne v = GoResult.ok (specSummarize p) := by
  unfold specDecodePod at h
  cases hv : v.Value with
  | none => simp [hv] at h
  | some jsonMap =>
    simp only [hv] at h
    cases hmd : jAsObj (jlookup jsonMap "metadata") with
    | none => simp [hmd] at h
    | some metadata =>
      simp only [hmd] at h
      cases hst : jAsObj (jlookup jsonMap "status") with
      | none => simp [hst] at h
      | some status =>
        simp only [hst] at h
        cases hcss : jAsArr (jlookup status "containerStatuses") with
        | none => simp [hcss] at h
        | some containerStatuses =>
          simp only [hcss] at h
          cases hsp : jAsObj (jlookup jsonMap "spec") with
          | none => simp [hsp] at h
          | some spec =>
            simp only [hsp] at h
            cases hname : jAsStr (jlookup metadata "name") with
            | none => simp [hname] at h
            | some name =>
              simp only [hname] at h
              cases hphase : jAsStr (jlookup status "phase") with
              | none => simp [hphase] at h
              | some phase =>
                simp only [hphase] at h
                cases hip : jAsStr (jlookup status "podIP") with
                | none => simp [hip] at h
                | some podIP =>
                  simp only [hip] at h
                  cases hnode : jAsStr (jlookup spec "nodeName") with
                  | none => simp [hnode] at h
                  | some nodeName =>
                    simp only [hnode] at h
                    cases hcs : containerStatuses.mapM
                        specDecodeContainerStatus with
                    | none =>
                      simp only [hcs] at h
                      exact Option.noConfusion h
                    | some cs =>
                      obtain ⟨hcount, hlen⟩ :=
                        getReadyAndRestartCount_spec containerStatuses cs hcs
                      simp only [hcs] at h
                      simp at h
                      simp only [metaToPodInfoOne, hv, hmd, hst, hcss, hsp,
                        hcount, hname, hphase, hip, hnode]
                      rw [← h]
                      simp [specSummarize, hlen]

theorem MetaToPodInfo_spec :
    ∀ (metas : List Meta) (pods : List PodSpec),
      metas.mapM specDecodePod = some pods →
      MetaToPodInfo metas = GoResult.ok (pods.map specSummarize) := by
  intro metas
  induction metas with
  | nil =>
    intro pods h
    simp only [List.mapM_nil, pure, Option.some.injEq] at h
    rw [← h]
    rfl
  | cons v metas ih =>
    intro pods h
    rw [List.mapM_cons] at h
    cases hv : specDecodePod v with
    | none => rw [hv] at h; simp at h
    | some p =>
      rw [hv] at h
      cases hrest : metas.mapM specDecodePod with
      | none => rw [hrest] at h; simp at h
      | some ps =>
        rw [hrest] at h
        simp at h
        rw [MetaToPodInfo, metaToPodInfoOne_spec v p hv, ih ps hrest, ← h]
        simp

theorem printResultItems_ok :
    ∀ metas : List Meta, (∀ v ∈ metas, v.«Type» ≠ "") →
      printResultItems metas = GoResult.ok (metas.map printAnnotated) := by
  intro metas
  induction metas with
  | nil => intro _; rfl
  | cons v metas ih =>
    intro h
    have hv : v.«Type» ≠ "" := h v (by simp)
    have hrest := ih (fun w hw => h w (by simp [hw]))
    rw [printResultItems, hrest]
    simp [printResultItem, printAnnotated, hv]

/-! Claim theorems. -/

/-- C1: a pod record whose payload is missing the required `status.podIP`
field makes `MetaToPodInfo` fail with a runtime panic from an unchecked type
assertion (`GoResult.crash`) rather than by returning a decode error — the
claim's "fails by returning a decode error ... never fails by any means other
than a returned error" does not hold of the code. -/
theorem C1_missing_podIP_panics :
    MetaToPodInfo [podPayloadMissingPodIP] = GoResult.crash := by decide

/-- C2 counterexample: invoking the command with zero positional arguments
yields the trace `[storeOpen, fatalExit]` — the backing store is opened by
`initDb` before the argument-count validation runs, contradicting the claim
that no store open occurs before validation rejects the input. -/
theorem C2_counterexample_store_open_first :
    runE [] (fun _ => []) "default" false ""
      = [Event.storeOpen, Event.fatalExit] := by decide

/-- C2 amended: with zero, multiple, or an unsupported positional argument
the command terminates fatally before any store read or query — but after
the store has already been opened by `initDb`. -/
theorem C2_invalid_args_no_store_read
    (args : List String) (store : String → List Meta) (ns : String)
    (aN : Bool) (ofmt : String)
    (h : args.length ≠ 1 ∨
      availableResourceTypesRunE.contains (args.headD "") = false) :
    runE args store ns aN ofmt = [Event.storeOpen, Event.fatalExit] ∧
    Event.storeRead ∉ runE args store ns aN ofmt := by
  have heq : runE args store ns aN ofmt
      = [Event.storeOpen, Event.fatalExit] := by
    by_cases hl : args.length = 1
    · have hc : availableResourceTypesRunE.contains (args.headD "")
          = false := by
        cases h with
        | inl h => exact absurd hl h
        | inr h => exact h
      have h1 : (args.length != 1) = false := by simp [hl]
      have h2 : (!(availableResourceTypesRunE.contains (args.headD "")))
          = true := by rw [hc]; rfl
      rw [runE, h1, h2]
      rfl
    · have h1 : (args.length != 1) = true := by simp [hl]
      rw [runE, h1]
      rfl
  refine ⟨heq, ?_⟩
  rw [heq]
  simp

/-- C2 witness: the unsupported argument `"widget"` satisfies the amended
theorem's hypothesis, and the trace is fatal with no store read. -/
theorem C2_invalid_args_no_store_read_witness :
    ((["widget"] : List String).length ≠ 1 ∨
      availableResourceTypesRunE.contains
        ((["widget"] : List String).headD "") = false) ∧
    (runE ["widget"] (fun _ => []) "default" false ""
        = [Event.storeOpen, Event.fatalExit] ∧
      Event.storeRead ∉ runE ["widget"] (fun _ => []) "default" false "") :=
  ⟨Or.inr (by decide),
    C2_invalid_args_no_store_read ["widget"] (fun _ => []) "default" false ""
      (Or.inr (by decide))⟩

/-- C3 counterexample: distributing the single record of kind `"widget"`
produces a map whose key set contains `"widget"` (a kind outside the fixed
set, which the claim says appears in no bucket) and does not contain `"pod"`
(which the claim says is always present): the pre-seeding loop ranges over
the package-level `availableResourceTypes`, which is nil because `RunE`
shadows it. -/
theorem C3_counterexample_widget_bucket :
    mapHasKey (distributeByResourceType [widgetRecord]) "widget" = true ∧
    mapHasKey (distributeByResourceType [widgetRecord]) "pod" = false := by
  decide

/-- C3 amended: the key set of the distributor's result is exactly the set of
kinds occurring in the input (no fixed-set pre-seeding — the package-level
`availableResourceTypes` is never assigned, so the seeding loop adds no
keys), and the bucket at any key holds exactly the records of that kind, in
input order — records of kinds outside the fixed set included. -/
theorem C3_key_set_matches_input_kinds (L : List Meta) (K : String) :
    mapHasKey (distributeByResourceType L) K
        = L.any (fun v => v.«Type» == K) ∧
    mapGetD (distributeByResourceType L) K
        = L.filter (fun v => v.«Type» == K) :=
  ⟨distributeByResourceType_hasKey L K, distributeByResourceType_getD L K⟩

/-- C4: evaluated on the empty summary list, `OutputPodInfo` writes the
header `NAME STAUTS RESTARTS READY IP NODE` — the second column title is
misspelled `STAUTS`, not the claimed `STATUS` — followed by the trailing
newline; the tab writer is configured with minimum width 8 and padding 3
(with `'\t'` as the pad character). -/
theorem C4_header_misspells_status :
    OutputPodInfo [] = "NAME\tSTAUTS\tRESTARTS\tREADY\tIP\tNODE\t\n" ∧
    newTabWriterConfig.minwidth = 8 ∧
    newTabWriterConfig.padding = 3 ∧
    newTabWriterConfig.padchar = '\t' :=
  ⟨rfl, rfl, rfl, rfl⟩

/-- C5: on a record list whose payloads all decode along the spec's required
pod shape, `MetaToPodInfo` succeeds and returns, in order, one summary per
record, each equal to the spec's summary: ready count = number of container
statuses with `ready == true`, restarts = sum of the `restartCount` values,
ready display string `"<readyCount>/<totalContainers>"`. -/
theorem C5_summarizer_refines_spec (metas : List Meta) (pods : List PodSpec)
    (h : metas.mapM specDecodePod = some pods) :
    MetaToPodInfo metas = GoResult.ok (pods.map specSummarize) ∧
    (pods.map specSummarize).length = metas.length := by
  refine ⟨MetaToPodInfo_spec metas pods h, ?_⟩
  rw [List.length_map]
  exact (mapM_some_length specDecodePod metas pods h).symm

/-- C5 witness: the claim's concrete record — 2 container statuses, ready
flags `[true, false]`, restart counts `[0, 3]` — decodes, summarization
succeeds, and the summary has ready `"1/2"` and restarts `3`. -/
theorem C5_summarizer_refines_spec_witness :
    [podRecordTwoContainers].mapM specDecodePod
        = some [podSpecTwoContainers] ∧
    (MetaToPodInfo [podRecordTwoContainers]
        = GoResult.ok ([podSpecTwoContainers].map specSummarize) ∧
      ([podSpecTwoContainers].map specSummarize).length
        = [podRecordTwoContainers].length) ∧
    (specSummarize podSpecTwoContainers).ready = "1/2" ∧
    (specSummarize podSpecTwoContainers).restarts = 3 :=
  ⟨by decide,
    C5_summarizer_refines_spec [podRecordTwoContainers] [podSpecTwoContainers]
      (by decide),
    by decide, by decide⟩

/-- C6: rendering N records with valid JSON payloads (and a non-empty kind,
per the data model) in JSON mode produces the `List`/`v1` envelope whose
items array has length exactly N, each item annotated with
`apiVersion = "v1"` and with `kind` equal to its source record's kind. -/
theorem C6_json_items_match_records (metas : List Meta)
    (_hval : ∀ v ∈ metas, v.Value.isSome = true)
    (hkind : ∀ v ∈ metas, v.«Type» ≠ "") :
    ∃ items,
      printResultItems metas = GoResult.ok items ∧
      printResultJson metas = GoResult.ok (jsonListEnvelope items) ∧
      items.length = metas.length ∧
      ∀ p ∈ items.zip metas,
        jlookup p.1 "apiVersion" = some (Jv.jstr "v1") ∧
        jlookup p.1 "kind" = some (Jv.jstr p.2.«Type») := by
  refine ⟨metas.map printAnnotated, printResultItems_ok metas hkind, ?_,
    by simp, ?_⟩
  · rw [printResultJson, printResultItems_ok metas hkind]
  · intro p hp
    have h1 : p.1 = printAnnotated p.2 := zip_map_left printAnnotated metas p hp
    rw [h1, printAnnotated]
    constructor
    · rw [jlookup_jupsert_ne _ _ _ _ (by decide)]
      exact jlookup_jupsert_self _ _ _
    · exact jlookup_jupsert_self _ _ _

/-- C6 witness: a two-record list (a pod and a service, both with valid
payloads) satisfies the hypotheses, so its JSON render has exactly two items
with matching kinds. -/
theorem C6_json_items_match_records_witness :
    (∀ v ∈ [samplePodRecord, sampleServiceRecord], v.Value.isSome = true) ∧
    (∀ v ∈ [samplePodRecord, sampleServiceRecord], v.«Type» ≠ "") ∧
    ∃ items,
      printResultItems [samplePodRecord, sampleServiceRecord]
          = GoResult.ok items ∧
      printResultJson [samplePodRecord, sampleServiceRecord]
          = GoResult.ok (jsonListEnvelope items) ∧
      items.length = [samplePodRecord, sampleServiceRecord].length ∧
      ∀ p ∈ items.zip [samplePodRecord, sampleServiceRecord],
        jlookup p.1 "apiVersion" = some (Jv.jstr "v1") ∧
        jlookup p.1 "kind" = some (Jv.jstr p.2.«Type») :=
  ⟨by decide, by decide,
    C6_json_items_match_records [samplePodRecord, sampleServiceRecord]
      (by decide) (by decide)⟩

/-- C7: with the all-namespaces flag set, `filterNamespace` is the identity
on the record list, for every namespace string. -/
theorem C7_all_namespaces_identity (result : List Meta) (ns : String) :
    filterNamespace result ns true = result := by
  simp [filterNamespace]

/-- C8: with the all-namespaces flag unset, `filterNamespace` returns exactly
the order-preserving sublist of records whose key's namespace component (the
part of the key before the first `/`) equals the namespace by exact string
comparison — an empty result being an ordinary value, not an error — and the
extraction matches the spec's examples. -/
theorem C8_namespace_filter_exact :
    (∀ (result : List Meta) (ns : String),
      filterNamespace result ns false
        = result.filter (fun v => getNamespaceFromKey v.Key == ns)) ∧
    getNamespaceFromKey "default/foo" = "default" ∧
    getNamespaceFromKey "kube-system/bar" = "kube-system" := by
  refine ⟨?_, by decide, by decide⟩
  intro result ns
  rw [filterNamespace]
  simp only [Bool.false_eq_true, if_false]
  rw [foldl_append_filter (fun v => getNamespaceFromKey v.Key == ns) result []]
  simp

/-- C9: for every kind in the fixed set, the distributor's bucket at that
kind holds exactly the input records of that kind in input order, and every
record whose kind is in the fixed set lies in the bucket of its own kind and
in no other. -/
theorem C9_bucket_exactness (L : List Meta) (K : String)
    (_hK : K ∈ fixedResourceKinds) :
    mapGetD (distributeByResourceType L) K
        = L.filter (fun v => v.«Type» == K) ∧
    ∀ v ∈ L, v.«Type» ∈ fixedResourceKinds →
      v ∈ mapGetD (distributeByResourceType L) v.«Type» ∧
      ∀ K', v ∈ mapGetD (distributeByResourceType L) K' → K' = v.«Type» := by
  refine ⟨distributeByResourceType_getD L K, ?_⟩
  intro v hv _
  constructor
  · rw [distributeByResourceType_getD]
    simp [List.mem_filter, hv]
  · intro K' hK'
    rw [distributeByResourceType_getD] at hK'
    have h2 := (List.mem_filter.mp hK').2
    exact (beq_iff_eq.mp h2).symm

/-- C9 witness: with a pod and a node record, the `"pod"` bucket is exactly
the pod record, and each record sits only in its own kind's bucket. -/
theorem C9_bucket_exactness_witness :
    "pod" ∈ fixedResourceKinds ∧
    (mapGetD (distributeByResourceType [bucketPodRecord, bucketNodeRecord])
          "pod"
        = [bucketPodRecord, bucketNodeRecord].filter
            (fun v => v.«Type» == "pod") ∧
      ∀ v ∈ [bucketPodRecord, bucketNodeRecord],
        v.«Type» ∈ fixedResourceKinds →
        v ∈ mapGetD
              (distributeByResourceType [bucketPodRecord, bucketNodeRecord])
              v.«Type» ∧
        ∀ K', v ∈ mapGetD
              (distributeByResourceType [bucketPodRecord, bucketNodeRecord])
              K' → K' = v.«Type») :=
  ⟨by decide,
    C9_bucket_exactness [bucketPodRecord, bucketNodeRecord] "pod" (by decide)⟩

/-- C10: in the JSON/YAML render path the unmarshal error is discarded: a
record whose stored payload is not valid JSON does not make the render return
a decode error — it is still emitted, as an item holding only the injected
`apiVersion` and `kind` fields. -/
theorem C10_invalid_payload_passes_through (metas : List Meta)
    (hkind : ∀ v ∈ metas, v.«Type» ≠ "") :
    ∃ items,
      printResultItems metas = GoResult.ok items ∧
      items.length = metas.length ∧
      ∀ p ∈ items.zip metas, p.2.Value = none →
        p.1 = [("apiVersion", Jv.jstr "v1"), ("kind", Jv.jstr p.2.«Type»)] := by
  refine ⟨metas.map printAnnotated, printResultItems_ok metas hkind,
    by simp, ?_⟩
  intro p hp hnone
  have h1 : p.1 = printAnnotated p.2 := zip_map_left printAnnotated metas p hp
  rw [h1, printAnnotated, hnone]
  rfl

/-- C10 witness: a single record with an unparsable payload renders without
error into exactly the two injected fields. -/
theorem C10_invalid_payload_passes_through_witness :
    (∀ v ∈ [invalidPayloadRecord], v.«Type» ≠ "") ∧
    ∃ items,
      printResultItems [invalidPayloadRecord] = GoResult.ok items ∧
      items.length = [invalidPayloadRecord].length ∧
      ∀ p ∈ items.zip [invalidPayloadRecord], p.2.Value = none →
        p.1 = [("apiVersion", Jv.jstr "v1"), ("kind", Jv.jstr p.2.«Type»)] :=
  ⟨by decide,
    C10_invalid_payload_passes_through [invalidPayloadRecord] (by decide)⟩

end KeadmDebugGet
